import Mathlib

/-!
Verification development for the crypto_news repository.
The embedding below translates `src/crypto_news.py` into Lean: strings are
`List Char`, Python `None` is `Option.none`, `datetime` instants are natural
numbers (seconds), and the external network/parse layer is an explicit
environment value.
-/

set_option autoImplicit false

namespace CryptoNews

/-! ### Character constants (written via code points to keep literals plain) -/

def nlChar : Char := Char.ofNat 10

def tabChar : Char := Char.ofNat 9

def crChar : Char := Char.ofNat 13

def vtChar : Char := Char.ofNat 11

def ffChar : Char := Char.ofNat 12

def quoteS : Char := Char.ofNat 39

def quoteD : Char := Char.ofNat 34

def braceL : Char := Char.ofNat 123

def braceR : Char := Char.ofNat 125

/-- Python's whitespace set for `str.split` / `str.strip` (ASCII part). -/
def isSpaceC (c : Char) : Bool :=
  c == ' ' || c == tabChar || c == nlChar || c == crChar || c == vtChar || c == ffChar

/-! ### clean_html (crypto_news.py lines 62-66)

`re.sub('<.*?>', '', raw_html)` removes, scanning left to right, each
substring from a `<` to the nearest following `>` with no newline in
between (`.` does not match a newline, and `.*?` is non-greedy), then
`' '.join(text.split())` collapses whitespace runs to single spaces and
trims the ends. -/

/-- One lazy match of `<.*?>` starting right after a `<`: consume up to and
including the nearest `>`; fail on a newline or the end of input. -/
def dropTag : List Char → Option (List Char)
  | [] => none
  | c :: rest => if c = '>' then some rest else if c = nlChar then none else dropTag rest

/-- Fuel-driven scan of `re.sub('<.*?>', '', _)`; the fuel is the input
length, which always suffices because every step consumes a character. -/
def stripTagsGo : Nat → List Char → List Char
  | 0, l => l
  | _ + 1, [] => []
  | fuel + 1, c :: rest =>
    if c = '<' then
      match dropTag rest with
      | some r => stripTagsGo fuel r
      | none => c :: stripTagsGo fuel rest
    else c :: stripTagsGo fuel rest

def stripTags (l : List Char) : List Char := stripTagsGo l.length l

/-- Python `text.split()`: maximal runs of non-whitespace characters. -/
def wordsGo : List Char → List Char → List (List Char)
  | [], acc => if acc = [] then [] else [acc.reverse]
  | c :: rest, acc =>
    if isSpaceC c then
      if acc = [] then wordsGo rest [] else acc.reverse :: wordsGo rest []
    else wordsGo rest (c :: acc)

/-- Python `' '.join(words)`. -/
def joinWords : List (List Char) → List Char
  | [] => []
  | [w] => w
  | w :: ws => w ++ ' ' :: joinWords ws

/-- `clean_html` (crypto_news.py lines 62-66): strip `<...>` tags, then
collapse whitespace. -/
def clean_html (raw_html : List Char) : List Char :=
  joinWords (wordsGo (stripTags raw_html) [])

/-- Python `str.strip()`: drop whitespace from both ends. -/
def pyStrip (l : List Char) : List Char :=
  ((l.dropWhile isSpaceC).reverse.dropWhile isSpaceC).reverse

/-! ### The `'</a>'` split used for the source field (crypto_news.py line 89) -/

/-- The separator `summary_html.split('</a>')` splits on. -/
def closeA : List Char := ['<', '/', 'a', '>']

/-- The suffix after the last occurrence of `'</a>'`, or `none` when the
separator does not occur; `split('</a>')[-1]` is this suffix when the
separator occurs and the whole string otherwise. -/
def afterLastCloseA : List Char → Option (List Char)
  | [] => none
  | c :: rest =>
    match afterLastCloseA rest with
    | some r => some r
    | none => if (c :: rest).take 4 = closeA then some ((c :: rest).drop 4) else none

/-- Whether `'</a>'` occurs as a contiguous substring. -/
def containsCloseA : List Char → Bool
  | [] => false
  | c :: rest => (decide ((c :: rest).take 4 = closeA)) || containsCloseA rest

/-! ### extract_link (crypto_news.py lines 68-72)

Modelled from the spec: the HTML parsing library (BeautifulSoup) is an
external collaborator, out of scope of the source; the spec says "Link:
first anchor element's href found anywhere in the raw description markup;
empty string if none."  The source line 72 is
`return link.get('href') if link else ''`, and the library's `Tag.get`
returns the attribute value, or Python `None` when the attribute is absent.
The model scans for the first complete `<a ...>` tag (lowercase, closed by
`>`), parses its attributes, and looks up `href`. -/

/-- Characters of a tag between its name and the closing `>`; `none` when
the tag is never closed. -/
def tagRegion : List Char → Option (List Char)
  | [] => none
  | c :: rest =>
    if c = '>' then some []
    else
      match tagRegion rest with
      | some r => some (c :: r)
      | none => none

/-- After `<a`, the tag is an anchor only when the next character ends the
tag name (`>`, `/`, or whitespace). -/
def anchorBoundary : List Char → Bool
  | [] => false
  | c :: _ => c == '>' || c == '/' || isSpaceC c

/-- Attribute region of the first anchor tag, or `none` when there is no
anchor. -/
def findAnchor : List Char → Option (List Char)
  | [] => none
  | c :: rest =>
    if c = '<' then
      match rest with
      | 'a' :: rest2 => if anchorBoundary rest2 then tagRegion rest2 else findAnchor rest
      | _ => findAnchor rest
    else findAnchor rest

/-- One attribute value: quoted with either quote character, or a bare run
of non-whitespace characters.  Returns the value and the remaining input. -/
def attrValue : List Char → List Char × List Char
  | [] => ([], [])
  | c :: rest =>
    if c = quoteD then
      (rest.takeWhile (· != quoteD), (rest.dropWhile (· != quoteD)).drop 1)
    else if c = quoteS then
      (rest.takeWhile (· != quoteS), (rest.dropWhile (· != quoteS)).drop 1)
    else
      ((c :: rest).takeWhile (fun d => !(isSpaceC d)), (c :: rest).dropWhile (fun d => !(isSpaceC d)))

/-- Fuel-driven attribute list of a tag region (name, value) pairs; a
valueless attribute gets the empty value. -/
def parseAttrsGo : Nat → List Char → List (List Char × List Char)
  | 0, _ => []
  | fuel + 1, l =>
    let l1 := l.dropWhile (fun c => isSpaceC c || c == '/')
    match l1 with
    | [] => []
    | _ :: _ =>
      let name := l1.takeWhile (fun c => !(isSpaceC c) && c != '=')
      let r1 := l1.dropWhile (fun c => !(isSpaceC c) && c != '=')
      if name = [] then []
      else
        match r1 with
        | '=' :: r2 =>
          let vr := attrValue r2
          (name, vr.1) :: parseAttrsGo fuel vr.2
        | _ => (name, []) :: parseAttrsGo fuel r1

def parseAttrs (l : List Char) : List (List Char × List Char) :=
  parseAttrsGo l.length l

/-- First attribute with the given name, `none` when absent. -/
def lookupAttr (name : List Char) : List (List Char × List Char) → Option (List Char)
  | [] => none
  | (n, v) :: rest => if n = name then some v else lookupAttr name rest

def hrefChars : List Char := ['h', 'r', 'e', 'f']

/-- `extract_link` (crypto_news.py lines 68-72).  Modelled from the spec
for the BeautifulSoup part (see above): `soup.find('a')` is the first
anchor, `link.get('href')` is the `href` attribute value or Python `None`
when the attribute is absent, and the whole call returns the empty string
when there is no anchor. -/
def extract_link (html_text : List Char) : Option (List Char) :=
  match findAnchor html_text with
  | some region => lookupAttr hrefChars (parseAttrs region)
  | none => some []

/-! ### fetch_news (crypto_news.py lines 74-104) -/

/-- One raw `<item>` of the feed: the `.text` of the `title`,
`description` and `pubDate` sub-tags, each `none` when the sub-tag is
absent (`item.title`, `item.description`, `item.pubDate` are `None`). -/
structure RawEntry where
  title : Option (List Char)
  description : Option (List Char)
  pubDate : Option (List Char)
deriving DecidableEq

/-- One normalized news item (the dict built at lines 91-97).  The `link`
field is an `Option` because `link.get('href')` can be Python `None`. -/
structure NewsRecord where
  title : List Char
  link : Option (List Char)
  published_date : List Char
  summary : List Char
  source : List Char
deriving DecidableEq

/-- The loop body at lines 86-98: normalize one raw entry. -/
def normalizeEntry (e : RawEntry) : NewsRecord :=
  let summary_html := e.description.getD []
  { title := e.title.getD []
  , link := extract_link summary_html
  , published_date := e.pubDate.getD []
  , summary := clean_html summary_html
  , source := pyStrip (if summary_html = [] then []
                       else clean_html ((afterLastCloseA summary_html).getD summary_html)) }

/-- Outcome of parsing the response body: the parser raises, or yields the
list of `<item>` entries (possibly empty). -/
inductive ParseOutcome where
  | perror
  | entries (es : List RawEntry)

/-- Outcome of `requests.get`: the call raises, or returns a response with
a status code and a body. -/
inductive NetOutcome where
  | netError
  | response (status : Nat) (p : ParseOutcome)

/-- The `try` body of `fetch_news` (lines 78-100): `raise_for_status`
raises on a status of 400 or above, the parser may raise, and otherwise
every item is normalized in order. -/
def fetch_attempt : NetOutcome → Except Unit (List NewsRecord)
  | NetOutcome.netError => Except.error ()
  | NetOutcome.response status p =>
    if 400 ≤ status then Except.error ()
    else
      match p with
      | ParseOutcome.perror => Except.error ()
      | ParseOutcome.entries es => Except.ok (es.map normalizeEntry)

/-- `fetch_news` (lines 74-104): the `except Exception` handler logs and
returns the empty list on any error. -/
def fetch_news (env : NetOutcome) : List NewsRecord :=
  match fetch_attempt env with
  | Except.ok items => items
  | Except.error _ => []

/-! ### The snapshot and update_cache (crypto_news.py lines 22-26, 106-118) -/

/-- The module-level `cache` dict restricted to its mutable news state:
`cache['news']` and `cache['last_update']`. -/
structure Snapshot where
  news : List NewsRecord
  last_update : Option Nat
deriving DecidableEq

/-- The mutations one refresh cycle performs on the shared dict (lines
111-113): when the fetched list is non-empty, first `cache['news'] = ...`,
then `cache['last_update'] = datetime.now()`; when it is empty, none. -/
def snapWrites (fetched : List NewsRecord) (now : Nat) : List (Snapshot → Snapshot) :=
  if fetched = [] then []
  else [fun s => { s with news := fetched }, fun s => { s with last_update := some now }]

/-- Net effect of one refresh cycle on the snapshot. -/
def update_cache_step (snap : Snapshot) (now : Nat) (fetched : List NewsRecord) : Snapshot :=
  (snapWrites fetched now).foldl (fun s f => f s) snap

/-- Every state of the shared dict a concurrent reader can observe during
one refresh cycle: before any write, between the two writes, and after. -/
def statesDuring (snap : Snapshot) (now : Nat) (fetched : List NewsRecord) : List Snapshot :=
  (snapWrites fetched now).scanl (fun s f => f s) snap

/-! ### NewsCache (crypto_news.py lines 28-43) -/

structure CacheEntry (V : Type) where
  data : V
  expiry : Nat
deriving DecidableEq

/-- The `NewsCache` class: `self.cache` maps keys to
`{'data': value, 'expiry': set-time + ttl}`; modelled as an association
list where the most recent `set` for a key shadows older entries, exactly
as dict assignment overwrites. -/
structure NewsCache (V : Type) where
  cache : List (String × CacheEntry V)

/-- Dict lookup on the association list. -/
def cacheLookup {V : Type} (key : String) : List (String × CacheEntry V) → Option (CacheEntry V)
  | [] => none
  | (k, e) :: rest => if k = key then some e else cacheLookup key rest

/-- `NewsCache.get` (lines 32-37), with `datetime.now()` passed as `now`. -/
def NewsCache.get {V : Type} (c : NewsCache V) (key : String) (now : Nat) : Option V :=
  match cacheLookup key c.cache with
  | some item => if now < item.expiry then some item.data else none
  | none => none

/-- `NewsCache.set` (lines 39-43), with `datetime.now()` passed as `now`. -/
def NewsCache.set {V : Type} (c : NewsCache V) (key : String) (value : V)
    (ttl_seconds now : Nat) : NewsCache V :=
  ⟨(key, ⟨value, now + ttl_seconds⟩) :: c.cache⟩

/-! ### cache_response keys (crypto_news.py lines 47-60)

`cache_key = f.__name__ + str(args) + str(kwargs)` (line 51).  The wrapped
functions are the two routes `get_news` and `get_latest_news`; Flask
dispatches them with the URL parameters as keyword arguments, so the calls
are `get_news()` (key `"get_news(){}"`) and `get_latest_news(count=n)`
(key `"get_latest_news(){'count': n}"`). -/

/-- A call to a `cache_response`-wrapped function of this program. -/
inductive WrappedCall where
  | getNews
  | getLatestNews (count : Nat)
deriving DecidableEq

/-- Python `str(n)` for a natural number: decimal digits. -/
def decDigit (d : Nat) : Char := Char.ofNat (48 + d)

def toDec (n : Nat) : List Char :=
  if _h : n < 10 then [decDigit n]
  else toDec (n / 10) ++ [decDigit (n % 10)]
termination_by n
decreasing_by
  exact Nat.div_lt_self (by omega) (by omega)

/-- Decimal read-back, inverse of `toDec`. -/
def ofDec (l : List Char) : Nat :=
  l.foldl (fun a c => 10 * a + (c.toNat - 48)) 0

/-- `str(kwargs)` prefix of the `get_latest_news` key up to the digits of
the count. -/
def latestKeyPre : List Char :=
  "get_latest_news()".data ++ [braceL, quoteS] ++ "count".data ++ [quoteS, ':', ' ']

/-- The key `f.__name__ + str(args) + str(kwargs)` computed at line 51 for
each call. -/
def cache_key : WrappedCall → List Char
  | WrappedCall.getNews => "get_news()".data ++ [braceL, braceR]
  | WrappedCall.getLatestNews n => latestKeyPre ++ toDec n ++ [braceR]

/-- The function-name part of a key: everything before the first `(`. -/
def extractName (l : List Char) : List Char := l.takeWhile (· != '(')

/-! ### The /news and /news/latest handlers (crypto_news.py lines 137-167) -/

/-- The JSON body both news routes build (status, formatted last_update,
count, items); `last_update` is kept as the instant itself. -/
structure NewsResponse where
  status : List Char
  last_update : Option Nat
  count : Nat
  news : List NewsRecord
deriving DecidableEq

/-- `get_news` (lines 139-153) reading a fixed snapshot. -/
def get_news (snap : Snapshot) : NewsResponse :=
  { status := "success".data
  , last_update := snap.last_update
  , count := snap.news.length
  , news := snap.news }

/-- `get_latest_news` (lines 157-167) reading a fixed snapshot:
`count` is `min(count, len(cache['news']))`, `news` is `cache['news'][:count]`. -/
def get_latest_news (snap : Snapshot) (count : Nat) : NewsResponse :=
  { status := "success".data
  , last_update := snap.last_update
  , count := min count snap.news.length
  , news := snap.news.take count }

/-! ### Concrete sample data used by witnesses and counterexamples -/

def recA : NewsRecord :=
  { title := "t".data, link := some ("l".data), published_date := "p".data
  , summary := "s".data, source := "o".data }

/-- The raw description of the spec's scenario (section 8). -/
def demoDesc : List Char :=
  "Some summary <a href=".data ++ [quoteD] ++ "http://x".data ++ [quoteD]
    ++ ">link</a> — Outlet Name".data

/-! ### Claim theorems -/

/-- Claim C1: for every fetch cycle in which `fetch_news` returns an empty
sequence, the refresh step leaves the snapshot unchanged: the news items and
the last_update timestamp keep their prior values. -/
theorem claim_C1_empty_fetch_keeps_snapshot (env : NetOutcome) (snap : Snapshot) (now : Nat)
    (h : fetch_news env = []) : update_cache_step snap now (fetch_news env) = snap := by
  rw [h]
  simp [update_cache_step, snapWrites]

theorem claim_C1_witness :
    update_cache_step ⟨[recA], some 3⟩ 7 (fetch_news NetOutcome.netError) = ⟨[recA], some 3⟩ :=
  claim_C1_empty_fetch_keeps_snapshot NetOutcome.netError ⟨[recA], some 3⟩ 7 rfl

/-- Claim C2: `get k` after `set k v ttl` returns `v` whenever the elapsed
time since the set is strictly below `ttl` seconds, and `none` whenever the
elapsed time is at least `ttl` seconds. -/
theorem claim_C2_ttl_roundtrip {V : Type} (c : NewsCache V) (k : String) (v : V)
    (ttl t0 t1 : Nat) (h : t0 ≤ t1) :
    (t1 - t0 < ttl → (c.set k v ttl t0).get k t1 = some v) ∧
    (ttl ≤ t1 - t0 → (c.set k v ttl t0).get k t1 = none) := by
  have hkey : (c.set k v ttl t0).get k t1 = if t1 < t0 + ttl then some v else none := by
    simp [NewsCache.get, NewsCache.set, cacheLookup]
  constructor <;> intro h2
  · rw [hkey, if_pos (by omega)]
  · rw [hkey, if_neg (by omega)]

theorem claim_C2_witness :
    (NewsCache.get (NewsCache.set (⟨[]⟩ : NewsCache Nat) "k" 7 3 0) "k" 1 = some 7) ∧
    (NewsCache.get (NewsCache.set (⟨[]⟩ : NewsCache Nat) "k" 7 3 0) "k" 5 = none) :=
  ⟨(claim_C2_ttl_roundtrip ⟨[]⟩ "k" 7 3 0 1 (by omega)).1 (by omega),
   (claim_C2_ttl_roundtrip ⟨[]⟩ "k" 7 3 0 5 (by omega)).2 (by omega)⟩

/-- Claim C5: when the requested count is at least the number of snapshot
items, `get_latest_news` returns exactly all items, reports the actual
total as the count, and does not signal an error. -/
theorem claim_C5_latest_clamped (snap : Snapshot) (n : Nat) (h : snap.news.length ≤ n) :
    (get_latest_news snap n).news = snap.news ∧
    (get_latest_news snap n).count = snap.news.length ∧
    (get_latest_news snap n).status = "success".data := by
  refine ⟨List.take_of_length_le h, ?_, rfl⟩
  simp only [get_latest_news]
  omega

theorem claim_C5_witness :
    (get_latest_news ⟨[recA], some 1⟩ 5).news = [recA] ∧
    (get_latest_news ⟨[recA], some 1⟩ 5).count = 1 ∧
    (get_latest_news ⟨[recA], some 1⟩ 5).status = "success".data :=
  claim_C5_latest_clamped ⟨[recA], some 1⟩ 5 (by decide)

/-- Claim C7: `fetch_news` never propagates an error past its boundary: on
any erroring attempt it returns the empty list, on a successful response it
returns the normalized entries, and an erroring fetch is indistinguishable
from a genuinely empty feed. -/
theorem claim_C7_fetch_boundary :
    (∀ env, fetch_attempt env = Except.error () → fetch_news env = []) ∧
    (∀ status es, status < 400 →
      fetch_news (NetOutcome.response status (ParseOutcome.entries es)) = es.map normalizeEntry) ∧
    fetch_news NetOutcome.netError
      = fetch_news (NetOutcome.response 200 (ParseOutcome.entries [])) := by
  refine ⟨?_, ?_, rfl⟩
  · intro env h
    unfold fetch_news
    rw [h]
  · intro status es h
    have hok : fetch_attempt (NetOutcome.response status (ParseOutcome.entries es))
        = Except.ok (es.map normalizeEntry) := by
      show (if 400 ≤ status then (Except.error () : Except Unit (List NewsRecord))
            else Except.ok (es.map normalizeEntry)) = Except.ok (es.map normalizeEntry)
      rw [if_neg (by omega)]
    unfold fetch_news
    rw [hok]

theorem claim_C7_witness : fetch_news NetOutcome.netError = [] :=
  claim_C7_fetch_boundary.1 NetOutcome.netError rfl

/-- Claim C8: for the scenario description, the normalizer yields
summary `"Some summary link — Outlet Name"`, link `"http://x"`, and
source `"— Outlet Name"`. -/
theorem claim_C8_scenario :
    clean_html demoDesc = "Some summary link — Outlet Name".data ∧
    extract_link demoDesc = some ("http://x".data) ∧
    (normalizeEntry ⟨some "T".data, some demoDesc, some "D".data⟩).summary
      = "Some summary link — Outlet Name".data ∧
    (normalizeEntry ⟨some "T".data, some demoDesc, some "D".data⟩).link = some ("http://x".data) ∧
    (normalizeEntry ⟨some "T".data, some demoDesc, some "D".data⟩).source = "— Outlet Name".data :=
  ⟨rfl, rfl, rfl, rfl, rfl⟩

/-- Claim C9 counterexample: a successful refresh cycle performs two
successive writes to the shared dict, and the intermediate state pairs the
new items with the old last_update timestamp, so the update is not a single
atomic replacement and a concurrent reader can observe the mixed state. -/
theorem claim_C9_counterexample :
    (statesDuring ⟨[], some 5⟩ 9 [recA]).get? 1 = some ⟨[recA], some 5⟩ ∧
    (snapWrites [recA] 9).length = 2 :=
  ⟨rfl, rfl⟩

/-- Claim C9 amended: a successful (non-empty) refresh cycle updates the
snapshot by two successive field assignments, news first and last_update
second; a reader between them observes the new items with the old
timestamp, and after both the snapshot holds the new items and timestamp. -/
theorem claim_C9_two_write_update (snap : Snapshot) (now : Nat) (fetched : List NewsRecord)
    (h : fetched ≠ []) :
    statesDuring snap now fetched
      = [snap, { snap with news := fetched }, ⟨fetched, some now⟩] ∧
    update_cache_step snap now fetched = ⟨fetched, some now⟩ := by
  constructor <;> simp [statesDuring, update_cache_step, snapWrites, h, List.scanl]

theorem claim_C9_witness :
    statesDuring ⟨[], some 5⟩ 9 [recA] = [⟨[], some 5⟩, ⟨[recA], some 5⟩, ⟨[recA], some 9⟩] ∧
    update_cache_step ⟨[], some 5⟩ 9 [recA] = ⟨[recA], some 9⟩ :=
  claim_C9_two_write_update ⟨[], some 5⟩ 9 [recA] (by decide)

/-- Claim C10: in every response of the two news handlers over a fixed
snapshot, the reported count equals the length of the returned news list. -/
theorem claim_C10_count_matches_length (snap : Snapshot) (n : Nat) :
    (get_news snap).count = (get_news snap).news.length ∧
    (get_latest_news snap n).count = (get_latest_news snap n).news.length := by
  refine ⟨rfl, ?_⟩
  simp [get_latest_news, List.length_take]

/-! ### Claim C3: field defaults -/

/-- Claim C3 counterexample: for an entry whose description's first anchor
has no href attribute, the normalized link field is Python None (not a
string), refuting "no field is ever null/None". -/
theorem claim_C3_counterexample :
    (normalizeEntry ⟨some "T".data, some "<a>x</a>".data, none⟩).link = none ∧
    findAnchor "<a>x</a>".data = some [] :=
  ⟨rfl, rfl⟩

/-- Claim C3 amended: every field of a normalized record except link is a
string defaulting to the empty string when its source data is absent; link
is the empty string when the description has no anchor, but is Python None
when the description's first anchor lacks an href attribute. -/
theorem claim_C3_fields_default (e : RawEntry) :
    (e.title = none → (normalizeEntry e).title = []) ∧
    (e.pubDate = none → (normalizeEntry e).published_date = []) ∧
    (e.description = none →
      (normalizeEntry e).summary = [] ∧ (normalizeEntry e).source = [] ∧
      (normalizeEntry e).link = some []) ∧
    (findAnchor (e.description.getD []) = none → (normalizeEntry e).link = some []) ∧
    ((normalizeEntry e).link = none →
      ∃ region, findAnchor (e.description.getD []) = some region ∧
        lookupAttr hrefChars (parseAttrs region) = none) := by
  obtain ⟨t, d, p⟩ := e
  refine ⟨?_, ?_, ?_, ?_, ?_⟩
  · intro h
    replace h : t = none := h
    subst h
    rfl
  · intro h
    replace h : p = none := h
    subst h
    rfl
  · intro h
    replace h : d = none := h
    subst h
    exact ⟨rfl, rfl, rfl⟩
  · intro h
    show extract_link (d.getD []) = some []
    unfold extract_link
    rw [h]
  · intro h
    replace h : extract_link (d.getD []) = none := h
    unfold extract_link at h
    cases hf : findAnchor (d.getD []) with
    | none =>
      rw [hf] at h
      exact absurd h (by simp)
    | some region =>
      rw [hf] at h
      exact ⟨region, rfl, h⟩

theorem claim_C3_witness :
    (normalizeEntry ⟨none, none, none⟩).title = [] :=
  (claim_C3_fields_default ⟨none, none, none⟩).1 rfl

/-! ### Claim C4: the source heuristic -/

theorem containsCloseA_tail (c : Char) (rest : List Char)
    (h : containsCloseA (c :: rest) = false) : containsCloseA rest = false := by
  simp only [containsCloseA, Bool.or_eq_false_iff] at h
  exact h.2

theorem containsCloseA_drop (l : List Char) (h : containsCloseA l = false) (k : Nat) :
    containsCloseA (l.drop k) = false := by
  induction l generalizing k with
  | nil => cases k <;> exact h
  | cons c rest ih =>
    cases k with
    | zero => exact h
    | succ k2 => exact ih (containsCloseA_tail c rest h) k2

theorem afterLastCloseA_isSome (l : List Char) :
    (afterLastCloseA l).isSome = containsCloseA l := by
  induction l with
  | nil => rfl
  | cons c rest ih =>
    simp only [afterLastCloseA, containsCloseA]
    cases h : afterLastCloseA rest with
    | some r =>
      rw [h] at ih
      simp only [← ih, Option.isSome_some, Bool.or_true]
    | none =>
      rw [h] at ih
      simp only [← ih, Option.isSome_none, Bool.or_false]
      split <;> simp_all

theorem afterLastCloseA_spec : ∀ (l r : List Char), afterLastCloseA l = some r →
    (∃ pre, l = pre ++ closeA ++ r) ∧ containsCloseA r = false := by
  intro l
  induction l with
  | nil =>
    intro r h
    exact absurd h (by simp [afterLastCloseA])
  | cons c rest ih =>
    intro r h
    simp only [afterLastCloseA] at h
    cases h2 : afterLastCloseA rest with
    | some r0 =>
      rw [h2] at h
      obtain rfl : r0 = r := Option.some.inj h
      obtain ⟨⟨pre, hpre⟩, hcon⟩ := ih r0 h2
      exact ⟨⟨c :: pre, by rw [hpre]; rfl⟩, hcon⟩
    | none =>
      rw [h2] at h
      by_cases h3 : (c :: rest).take 4 = closeA
      · rw [if_pos h3] at h
        obtain rfl : (c :: rest).drop 4 = r := Option.some.inj h
        have hrest : containsCloseA rest = false := by
          have h4 := afterLastCloseA_isSome rest
          rw [h2] at h4
          exact h4.symm
        refine ⟨⟨[], ?_⟩, containsCloseA_drop rest hrest 3⟩
        conv_lhs => rw [← List.take_append_drop 4 (c :: rest)]
        rw [h3]
        rfl
      · rw [if_neg h3] at h
        exact absurd h (by simp)

theorem afterLastCloseA_append (pre suf : List Char) (h : containsCloseA suf = false) :
    afterLastCloseA (pre ++ closeA ++ suf) = some suf := by
  induction pre with
  | nil =>
    show afterLastCloseA ('<' :: '/' :: 'a' :: '>' :: suf) = some suf
    have h1 : containsCloseA ('/' :: 'a' :: '>' :: suf) = containsCloseA suf := by
      simp [containsCloseA, closeA]
    have hnone : afterLastCloseA ('/' :: 'a' :: '>' :: suf) = none := by
      cases ho : afterLastCloseA ('/' :: 'a' :: '>' :: suf) with
      | none => rfl
      | some r =>
        have h2 := afterLastCloseA_isSome ('/' :: 'a' :: '>' :: suf)
        rw [ho, h1, h] at h2
        exact absurd h2 (by simp)
    rw [afterLastCloseA, hnone]
    rfl
  | cons q qs ih =>
    show afterLastCloseA (q :: (qs ++ closeA ++ suf)) = some suf
    simp only [afterLastCloseA]
    rw [ih]

/-- Claim C4 counterexample: for the anchor-free description "hello" the
source field is "hello", not the empty string the claim requires. -/
theorem claim_C4_counterexample :
    (normalizeEntry ⟨none, some "hello".data, none⟩).source = "hello".data ∧
    containsCloseA "hello".data = false ∧
    findAnchor "hello".data = none ∧
    "hello".data ≠ ([] : List Char) :=
  ⟨rfl, rfl, rfl, by decide⟩

/-- Claim C4 amended: the source field equals the markup-stripped,
whitespace-collapsed, trimmed text after the last anchor-closing tag of the
raw description; when the description contains no anchor-closing tag, the
source is instead the whole description markup-stripped and trimmed. -/
theorem claim_C4_source_after_last_anchor (e : RawEntry) (desc : List Char)
    (hdesc : e.description = some desc) :
    ((∀ pre suf, desc ≠ pre ++ closeA ++ suf) →
       (normalizeEntry e).source = pyStrip (clean_html desc)) ∧
    (∀ pre suf, desc = pre ++ closeA ++ suf → containsCloseA suf = false →
       (normalizeEntry e).source = pyStrip (clean_html suf)) := by
  obtain ⟨t, d, p⟩ := e
  replace hdesc : d = some desc := hdesc
  subst hdesc
  constructor
  · intro hne
    have hnone : afterLastCloseA desc = none := by
      cases ho : afterLastCloseA desc with
      | none => rfl
      | some r =>
        obtain ⟨⟨pre, hpre⟩, _⟩ := afterLastCloseA_spec desc r ho
        exact absurd hpre (hne pre r)
    show pyStrip (if desc = [] then [] else clean_html ((afterLastCloseA desc).getD desc))
        = pyStrip (clean_html desc)
    rw [hnone]
    by_cases hd : desc = []
    · subst hd
      rfl
    · rw [if_neg hd]
      rfl
  · intro pre suf hsplit hcon
    have hsome : afterLastCloseA desc = some suf := by
      rw [hsplit]
      exact afterLastCloseA_append pre suf hcon
    have hne2 : desc ≠ [] := by
      rw [hsplit]
      simp [closeA]
    show pyStrip (if desc = [] then [] else clean_html ((afterLastCloseA desc).getD desc))
        = pyStrip (clean_html suf)
    rw [hsome, if_neg hne2]
    rfl

theorem claim_C4_witness :
    (normalizeEntry ⟨none, some "x</a>y".data, none⟩).source = pyStrip (clean_html "y".data) :=
  (claim_C4_source_after_last_anchor ⟨none, some "x</a>y".data, none⟩ "x</a>y".data rfl).2
    "x".data "y".data (by decide) (by decide)

/-! ### Claim C6: key injectivity -/

theorem decDigit_toNat (d : Nat) (h : d < 10) : (decDigit d).toNat = 48 + d := by
  interval_cases d <;> decide

theorem ofDec_toDec (n : Nat) : ofDec (toDec n) = n := by
  induction n using Nat.strong_induction_on with
  | _ n ih =>
    by_cases h : n < 10
    · rw [toDec, dif_pos h]
      show 10 * 0 + ((decDigit n).toNat - 48) = n
      rw [decDigit_toNat n h]
      omega
    · rw [toDec, dif_neg h]
      show ofDec (toDec (n / 10) ++ [decDigit (n % 10)]) = n
      unfold ofDec
      rw [List.foldl_append]
      have ihm : (toDec (n / 10)).foldl (fun a c => 10 * a + (c.toNat - 48)) 0 = n / 10 :=
        ih (n / 10) (Nat.div_lt_self (by omega) (by omega))
      rw [ihm]
      show 10 * (n / 10) + ((decDigit (n % 10)).toNat - 48) = n
      rw [decDigit_toNat (n % 10) (by omega)]
      omega

theorem toDec_inj (m n : Nat) (h : toDec m = toDec n) : m = n := by
  have h2 := congrArg ofDec h
  rwa [ofDec_toDec, ofDec_toDec] at h2

/-- Claim C6: the memoization key f.__name__ + str(args) + str(kwargs) is
injective on the calls to the two cache_response-wrapped endpoints:
distinct wrapped functions or distinct argument combinations always yield
distinct keys. -/
theorem claim_C6_cache_key_injective (a b : WrappedCall) (h : cache_key a = cache_key b) :
    a = b := by
  cases a with
  | getNews =>
    cases b with
    | getNews => rfl
    | getLatestNews n =>
      have h2 : ("get_news".data : List Char) = "get_latest_news".data :=
        congrArg extractName h
      exact absurd h2 (by decide)
  | getLatestNews m =>
    cases b with
    | getNews =>
      have h2 : ("get_latest_news".data : List Char) = "get_news".data :=
        congrArg extractName h
      exact absurd h2 (by decide)
    | getLatestNews n =>
      have h1 : latestKeyPre ++ (toDec m ++ [braceR]) = latestKeyPre ++ (toDec n ++ [braceR]) := h
      have h2 := List.append_cancel_left h1
      have h3 := List.append_cancel_right h2
      rw [toDec_inj m n h3]

theorem claim_C6_witness : WrappedCall.getLatestNews 3 = WrappedCall.getLatestNews 3 :=
  claim_C6_cache_key_injective (WrappedCall.getLatestNews 3) (WrappedCall.getLatestNews 3) rfl

end CryptoNews
